import Mathlib

/-!
Shallow embedding of the XRShare docset ingestion/retrieval pipeline
(`scripts/ingest_docset.py`, `scripts/query_docset.py`, `scripts/assist.py`)
and proofs about its chunking, ingestion, persistence and retrieval behavior.

External collaborators (the tiktoken tokenizer, the OpenAI embedding backend,
the faiss vector index, the filesystem and the sqlite search index) are
modelled as explicit parameters, exactly as the spec treats them: the
tokenizer as an encode/decode pair, the embedding backend as a function from
text to vector, the vector index as a structure with a row count and a
search function, and the filesystem as predicate/reader functions.
-/

/-- A metadata record `{'name': ..., 'text': ...}` as appended by
`ingest_docset.main` (line 102) and consumed by the query scripts. -/
structure MetaRecord where
  name : String
  text : String
deriving DecidableEq

/-- The external tokenizer (`tiktoken.get_encoding('gpt2')` in
`chunk_text`), treated as an opaque collaborator: `encode` maps text to a
token sequence and `decode` maps a token sequence back to text. -/
structure Tokenizer (τ : Type) where
  encode : String → List τ
  decode : List τ → String

/-- A concrete tokenizer instance (one token per character) used to
evaluate the chunking theorems on explicit inputs. -/
def charTokenizer : Tokenizer Char :=
  { encode := fun s => s.data, decode := fun l => String.mk l }

/-- Python's `range(0, n, step)` for `step >= 1`: the multiples of `step`
below `n`.  The list has `ceil(n / step) = (n + step - 1) / step` elements.
(Python raises `ValueError` for `step = 0`; that case yields `[]` here and
is excluded by the `overlap < max_tokens` hypothesis of every theorem.) -/
def pyRange (n step : Nat) : List Nat :=
  (List.range ((n + step - 1) / step)).map (· * step)

/-- The token windows taken by `chunk_text` (ingest_docset.py lines 66-67):
`for i in range(0, len(tokens), max_tokens - overlap): chunk = tokens[i:i+max_tokens]`,
with the slice `tokens[i:i+max_tokens]` written as `(ts.drop i).take maxT`. -/
def chunkTokens (maxT ov : Nat) (ts : List τ) : List (List τ) :=
  (pyRange ts.length (maxT - ov)).map fun i => (ts.drop i).take maxT

/-- `chunk_text(text, max_tokens, overlap)` from ingest_docset.py lines
61-69: encode the text, slice overlapping token windows, decode each
window back to text (source defaults: `max_tokens=500`, `overlap=50`). -/
def chunk_text (tk : Tokenizer τ) (text : String) (maxT ov : Nat) : List String :=
  (chunkTokens maxT ov (tk.encode text)).map tk.decode

/-- Token-level re-assembly described by the spec's chunk-coverage
property: keep the first chunk whole and remove the leading `ov` tokens
from every later chunk, then concatenate. -/
def overlapJoinTokens (ov : Nat) : List (List τ) → List τ
  | [] => []
  | c :: rest => c ++ ((rest.map (List.drop ov)).flatten)

/-- Concatenation of a list of strings (the chunk re-assembly happens on
decoded chunks, so the concatenation is on strings). -/
def concatStrings : List String → String
  | [] => ""
  | s :: rest => s ++ concatStrings rest

/-- String-level re-assembly of a chunk list: the first chunk whole,
every later chunk with its leading `ov` tokens removed (tokens are
recovered with the tokenizer's `encode`), all concatenated. -/
def overlapJoinText (tk : Tokenizer τ) (ov : Nat) : List String → String
  | [] => ""
  | c :: rest => c ++ concatStrings (rest.map fun s => tk.decode ((tk.encode s).drop ov))

/- ### Ingestion pipeline (ingest_docset.py, main, lines 98-123) -/

/-- The `(name, chunk)` rows built by the nested loop of
`ingest_docset.main` (lines 98-102): for every document in order, for
every chunk of its text in order, one row. -/
def ingestPairs (tk : Tokenizer τ) (maxT ov : Nat) (docs : List (String × String)) :
    List (String × String) :=
  (docs.map fun d => (chunk_text tk d.2 maxT ov).map fun c => (d.1, c)).flatten

/-- The `texts` list accumulated by `ingest_docset.main`. -/
def ingestTexts (tk : Tokenizer τ) (maxT ov : Nat) (docs : List (String × String)) :
    List String :=
  (ingestPairs tk maxT ov docs).map Prod.snd

/-- The `meta` list accumulated by `ingest_docset.main`:
`meta.append({'name': name, 'text': chunk})` in step with `texts`. -/
def ingestMeta (tk : Tokenizer τ) (maxT ov : Nat) (docs : List (String × String)) :
    List MetaRecord :=
  (ingestPairs tk maxT ov docs).map fun p => MetaRecord.mk p.1 p.2

/-- The embedding loop of `ingest_docset.main` (lines 105-110):
`for i in range(0, len(texts), 50): embeddings.extend(embed_texts(batch))`.
`f` is one `embed_texts` call on a whole batch; an exception from the
backend (`Except.error`) aborts the loop at the first failing batch,
exactly as an uncaught Python exception would. -/
def embedBatches (f : List String → Except ε (List (List Rat))) :
    List (List String) → Except ε (List (List Rat))
  | [] => .ok []
  | b :: bs =>
    match f b with
    | .error e => .error e
    | .ok v =>
      match embedBatches f bs with
      | .error e => .error e
      | .ok rest => .ok (v ++ rest)

/-- All embeddings of the ingestion run: the texts are cut into batches of
50 (`batch = texts[i:i + batch_size]`, the same slicing loop as the
chunker with window 50 and no overlap) and embedded batch by batch. -/
def ingestEmbeddings (f : List String → Except ε (List (List Rat)))
    (texts : List String) : Except ε (List (List Rat)) :=
  embedBatches f (chunkTokens 50 0 texts)

/-- A file written at the end of `ingest_docset.main`: the faiss index
artifact (line 119) or the companion metadata JSON (lines 121-123). -/
inductive IngestArtifact
  | indexFile (rows : List (List Rat))
  | metaJson (records : List MetaRecord)

/-- The persistence step of `ingest_docset.main`: embeddings are computed
first (lines 105-110); only afterwards are the index file and the
metadata file written (lines 112-123).  The result is the list of
`(path, artifact)` writes; an embedding failure propagates and nothing
is written. -/
def ingestArtifacts (f : List String → Except ε (List (List Rat)))
    (tk : Tokenizer τ) (maxT ov : Nat) (docs : List (String × String))
    (output : String) : Except ε (List (String × IngestArtifact)) :=
  match ingestEmbeddings f (ingestTexts tk maxT ov docs) with
  | .error e => .error e
  | .ok embs =>
    .ok [(output, .indexFile embs),
         (output ++ ".meta.json", .metaJson (ingestMeta tk maxT ov docs))]

/- ### Document extractor (ingest_docset.py, get_documents, lines 37-59) -/

/-- `os.path.join`, modelled as separator concatenation (its exact string
shape is irrelevant to the claims: paths are only compared through the
filesystem functions). -/
def pathJoin (a b : String) : String := a ++ "/" ++ b

/-- `Contents/Resources/docSet.dsidx` under the docset path (line 39). -/
def dsidxPath (p : String) : String := pathJoin p "Contents/Resources/docSet.dsidx"

/-- `Contents/Resources/Documents` under the docset path (line 40). -/
def documentsDir (p : String) : String := pathJoin p "Contents/Resources/Documents"

/-- The filesystem and sqlite environment `get_documents` runs against:
`isFile`/`isDir` are `os.path.isfile`/`os.path.isdir`, `readFile` the
contents of a file, and `searchIndexRows` the rows returned by
`SELECT name, path FROM searchIndex WHERE path NOT NULL` (line 46). -/
structure DocsetEnv where
  isFile : String → Bool
  isDir : String → Bool
  readFile : String → String
  searchIndexRows : List (String × String)

/-- The one failure of the extractor: `sys.exit(1)` with
`Invalid docset path` (lines 41-43) — the spec's `InvalidBundle`. -/
inductive BundleFailure
  | invalidBundle
deriving DecidableEq

/-- `get_documents(docset_path)` from ingest_docset.py lines 37-59:
exit if the sqlite index file or the documents directory is absent;
otherwise walk the index rows in order, read and strip every row whose
backing file exists, and silently skip the rest.  `stripText` is the
external BeautifulSoup `get_text` step, treated as an opaque function. -/
def get_documents (fs : DocsetEnv) (stripText : String → String) (docsetPath : String) :
    Except BundleFailure (List (String × String)) :=
  if !fs.isFile (dsidxPath docsetPath) || !fs.isDir (documentsDir docsetPath) then
    .error .invalidBundle
  else
    .ok (fs.searchIndexRows.foldl
      (fun docs e =>
        if fs.isFile (pathJoin (documentsDir docsetPath) e.2) then
          docs ++ [(e.1, stripText (fs.readFile (pathJoin (documentsDir docsetPath) e.2)))]
        else docs)
      [])

/- ### Retrieval (assist.py retrieve_docs, lines 54-64; query_docset.py
main, lines 75-85) -/

/-- The only failure the retrieval join can raise: Python's `IndexError`
from `meta[idx]` when `idx` is out of range.  Neither script defines an
`IndexEmpty`, `InvalidArgument` or `IndexCorrupt` error anywhere. -/
inductive RunFailure
  | indexError
deriving DecidableEq

/-- One retrieval result `{'name': ..., 'chunk': ..., 'distance': ...}`
as built by `retrieve_docs` (assist.py line 63). -/
structure QueryResult where
  name : String
  chunk : String
  distance : Rat
deriving DecidableEq

/-- The faiss index as the scripts see it: a row count (`ntotal`) and a
`search(vector, k)` returning `(distance, row_index)` pairs.  Per the
spec's Index Store contract, for `k` larger than the row count faiss pads
the result with `-1` sentinel row indices, and distances are ascending. -/
structure FaissIndex where
  ntotal : Nat
  search : List Rat → Int → List (Rat × Int)

/-- Python list indexing `l[i]`: non-negative indices are positional,
negative indices wrap from the end (`l[-1]` is the last element), and
anything out of range raises `IndexError` (`none` here). -/
def pyGet (l : List α) (i : Int) : Option α :=
  if 0 ≤ i then l.get? i.toNat
  else if -(l.length : Int) ≤ i then l.get? ((l.length : Int) + i).toNat
  else none

/-- The join loop shared by assist.py lines 59-63 and query_docset.py
lines 79-85: for every `(dist, idx)` pair of the search result in order,
read `meta[idx]` with Python indexing and emit a result; an out-of-range
index raises `IndexError` on the spot. -/
def joinHits (meta : List MetaRecord) : List (Rat × Int) → Except RunFailure (List QueryResult)
  | [] => .ok []
  | (d, i) :: rest =>
    match pyGet meta i with
    | none => .error .indexError
    | some entry =>
      match joinHits meta rest with
      | .error e => .error e
      | .ok rs => .ok ({ name := entry.name, chunk := entry.text, distance := d } :: rs)

/-- `retrieve_docs(index, meta, query, embed_model, topk)` from assist.py
lines 54-64: embed the query, search the index with `topk`, join every
returned row index with the metadata.  No row-count, emptiness or `topk`
validation happens anywhere on this path. -/
def retrieve_docs (index : FaissIndex) (meta : List MetaRecord) (query : String)
    (embed : String → List Rat) (topk : Int) : Except RunFailure (List QueryResult) :=
  joinHits meta (index.search (embed query) topk)

/- ### Loading persisted artifacts (query_docset.py lines 35-46;
assist.py lines 37-48) -/

/-- The filesystem the query scripts run against: `isFile` is
`os.path.isfile`, `readIndexFile` is `faiss.read_index`, and
`readMetaJson` is `json.load` on the metadata file. -/
structure QueryEnv where
  isFile : String → Bool
  readIndexFile : String → FaissIndex
  readMetaJson : String → List MetaRecord

/-- The only load-time failure in the scripts: `sys.exit(1)` when a path
is not a file.  No `IndexCorrupt` check exists. -/
inductive LoadFailure
  | missingFile
deriving DecidableEq

/-- `load_index(path)`: exit if the file is absent, else read it. -/
def load_index (fs : QueryEnv) (path : String) : Except LoadFailure FaissIndex :=
  if fs.isFile path then .ok (fs.readIndexFile path) else .error .missingFile

/-- `load_metadata(path)`: exit if the file is absent, else parse the
JSON.  The restored list is returned as-is: its length is never compared
with the index row count. -/
def load_metadata (fs : QueryEnv) (path : String) : Except LoadFailure (List MetaRecord) :=
  if fs.isFile path then .ok (fs.readMetaJson path) else .error .missingFile

/-- The load sequence of both query scripts' `main`: `load_index` then
`load_metadata`, with no cross-check between the two. -/
def loadIndexAndMetadata (fs : QueryEnv) (indexPath metaPath : String) :
    Except LoadFailure (FaissIndex × List MetaRecord) :=
  match load_index fs indexPath with
  | .error e => .error e
  | .ok ix =>
    match load_metadata fs metaPath with
    | .error e => .error e
    | .ok m => .ok (ix, m)

/- ### Concrete fixtures for evaluating the theorems -/

/-- The padding distance faiss reports alongside `-1` sentinel row
indices (the float32 maximum; its exact value is irrelevant). -/
def sentinelDist : Rat := 340282346638528859811704183484516925440

/-- A sample metadata record. -/
def uiViewMeta : MetaRecord := { name := "UIView Overview", text := "UIView chunk text" }

/-- A one-row index; searched with `k = 2` it returns the single real row
followed by a `(big_distance, -1)` sentinel pair, the faiss padding
behavior the spec documents for `k` greater than the row count. -/
def oneRowIndex : FaissIndex :=
  { ntotal := 1
    search := fun _ k => if k = 2 then [(0, 0), (sentinelDist, -1)] else [] }

/-- A zero-row index; searched with `k = 5` it returns five sentinel
pairs, the faiss behavior on an empty flat index. -/
def emptyIndex : FaissIndex :=
  { ntotal := 0
    search := fun _ k =>
      if k = 5 then
        [(sentinelDist, -1), (sentinelDist, -1), (sentinelDist, -1),
         (sentinelDist, -1), (sentinelDist, -1)]
      else [] }

/-- A one-row index; searched with `k <= 0` it returns no rows (the `k`
rows with smallest distance, of which there are zero). -/
def smallIndex : FaissIndex :=
  { ntotal := 1
    search := fun _ k => if k ≤ 0 then [] else [(0, 0)] }

/-- A query environment whose persisted index has 2 rows while the
companion metadata JSON holds a single record: a misaligned pair. -/
def misalignedEnv : QueryEnv :=
  { isFile := fun _ => true
    readIndexFile := fun _ => { ntotal := 2, search := fun _ _ => [] }
    readMetaJson := fun _ => [uiViewMeta] }

/-- A concrete per-text embedding (the vector holding the text length). -/
def cEmbedOne (s : String) : List Rat := [(s.length : Rat)]

/-- A concrete always-succeeding embedding backend honoring the
order/length-preserving contract. -/
def cEmbedOk (b : List String) : Except Unit (List (List Rat)) := .ok (b.map cEmbedOne)

/-- A concrete always-failing embedding backend. -/
def cEmbedFail (_ : List String) : Except Unit (List (List Rat)) := .error ()

/- ### Arithmetic and unfolding lemmas for the chunker -/

/-- Peeling one window off the ceiling division that counts the windows. -/
theorem ceil_div_step (n s : Nat) (hs : 0 < s) (hn : 0 < n) :
    (n + s - 1) / s = (n - s + s - 1) / s + 1 := by
  rcases Nat.le_total n s with h | h
  · have e1 : n + s - 1 = (n - 1) + s := by omega
    have e2 : n - s + s - 1 = s - 1 := by omega
    rw [e1, e2, Nat.add_div_right _ hs]
    have d1 : (n - 1) / s = 0 := Nat.div_eq_of_lt (by omega)
    have d2 : (s - 1) / s = 0 := Nat.div_eq_of_lt (by omega)
    omega
  · have e1 : n + s - 1 = (n - 1) + s := by omega
    have e2 : n - s + s - 1 = n - 1 := by omega
    rw [e1, e2, Nat.add_div_right _ hs]

/-- The chunker produces no window from an empty token sequence. -/
theorem chunkTokens_nil (maxT ov : Nat) : chunkTokens maxT ov ([] : List τ) = [] := by
  have h0 : (0 + (maxT - ov) - 1) / (maxT - ov) = 0 := by
    rcases Nat.eq_zero_or_pos (maxT - ov) with h | h
    · simp [h]
    · exact Nat.div_eq_of_lt (by omega)
  simp only [chunkTokens, pyRange, List.length_nil, h0]
  simp

/-- Unfolding the chunker one window at a time: on a non-empty token
sequence the first window is `ts.take maxT` and the rest is the chunking
of `ts.drop (maxT - ov)` (the loop advancing by `max_tokens - overlap`). -/
theorem chunkTokens_cons (maxT ov : Nat) (h : ov < maxT) (ts : List τ) (hts : ts ≠ []) :
    chunkTokens maxT ov ts = ts.take maxT :: chunkTokens maxT ov (ts.drop (maxT - ov)) := by
  have hs : 0 < maxT - ov := by omega
  have hn : 0 < ts.length := List.length_pos.mpr hts
  unfold chunkTokens pyRange
  rw [List.length_drop, ceil_div_step ts.length (maxT - ov) hs hn,
    List.range_succ_eq_map]
  simp only [List.map_cons, List.map_map, List.drop_zero, Nat.zero_mul]
  congr 1
  apply List.map_congr_left
  intro i _
  simp only [Function.comp_apply]
  rw [List.drop_drop, Nat.succ_mul, Nat.add_comm (i * (maxT - ov)) (maxT - ov)]

/-- Every token window produced by the chunker is non-empty. -/
theorem chunkTokens_ne_nil (maxT ov : Nat) (h : ov < maxT) :
    ∀ (ts : List τ), ∀ c ∈ chunkTokens maxT ov ts, c ≠ [] := by
  intro ts
  cases ts with
  | nil => rw [chunkTokens_nil]; intro c hc; cases hc
  | cons a l =>
    rw [chunkTokens_cons maxT ov h _ (by simp)]
    intro c hc
    rcases List.mem_cons.mp hc with rfl | hc2
    · obtain ⟨k, hk⟩ : ∃ k, maxT = k + 1 := ⟨maxT - 1, by omega⟩
      rw [hk, List.take_succ_cons]
      simp
    · exact chunkTokens_ne_nil maxT ov h _ c hc2
termination_by ts => ts.length
decreasing_by simp [List.length_drop]; omega

/-- Dropping the leading `ov` tokens of every window and concatenating
yields the original token sequence with its leading `ov` tokens dropped:
window `j+1` begins exactly `ov` tokens before window `j` ends. -/
theorem chunkTokens_map_drop_flatten (maxT ov : Nat) (h : ov < maxT) (ts : List τ) :
    ((chunkTokens maxT ov ts).map (List.drop ov)).flatten = ts.drop ov := by
  cases ts with
  | nil => rw [chunkTokens_nil]; simp
  | cons a l =>
    rw [chunkTokens_cons maxT ov h _ (by simp)]
    rw [List.map_cons, List.flatten_cons,
      chunkTokens_map_drop_flatten maxT ov h ((a :: l).drop (maxT - ov))]
    rw [List.drop_drop, List.drop_take]
    have e3 : maxT - ov + ov = ov + (maxT - ov) := by omega
    rw [e3]
    exact List.drop_take_append_drop (a :: l) ov (maxT - ov)
termination_by ts.length
decreasing_by simp [List.length_drop]; omega

/-- Re-assembling all windows (first kept whole, later ones with the
overlap removed) reconstructs the full token sequence without gaps. -/
theorem chunkTokens_overlapJoin (maxT ov : Nat) (h : ov < maxT) (ts : List τ) :
    overlapJoinTokens ov (chunkTokens maxT ov ts) = ts := by
  cases ts with
  | nil => rw [chunkTokens_nil]; rfl
  | cons a l =>
    rw [chunkTokens_cons maxT ov h _ (by simp)]
    show (a :: l).take maxT ++
        ((chunkTokens maxT ov ((a :: l).drop (maxT - ov))).map (List.drop ov)).flatten = a :: l
    rw [chunkTokens_map_drop_flatten maxT ov h, List.drop_drop]
    have e : maxT - ov + ov = maxT := by omega
    rw [e, List.take_append_drop]

/-- With zero overlap the re-assembly is the plain flattening. -/
theorem overlapJoinTokens_zero (cs : List (List τ)) :
    overlapJoinTokens 0 cs = cs.flatten := by
  cases cs with
  | nil => rfl
  | cons c rest =>
    have hdz : (List.drop 0 : List τ → List τ) = id := funext List.drop_zero
    simp [overlapJoinTokens, hdz]

/-- The windows of size `s` with zero overlap flatten back to the input
(used for the batching loop of the ingestion script). -/
theorem chunkTokens_flatten_zero (s : Nat) (hs : 0 < s) (l : List τ) :
    (chunkTokens s 0 l).flatten = l := by
  rw [← overlapJoinTokens_zero, chunkTokens_overlapJoin s 0 hs]

/-- Concatenating decoded token lists is decoding the flattened list,
for a decoder that takes `++` to `++` and `[]` to `""`. -/
theorem concatStrings_map_decode (tk : Tokenizer τ) (hnil : tk.decode [] = "")
    (hhom : ∀ a b : List τ, tk.decode (a ++ b) = tk.decode a ++ tk.decode b) :
    ∀ l : List (List τ), concatStrings (l.map tk.decode) = tk.decode l.flatten := by
  intro l
  induction l with
  | nil => simpa [concatStrings] using hnil.symm
  | cons c rest ih => simp [concatStrings, List.flatten_cons, hhom, ih]

/- ### Chunker claims -/

/-- Claim C2, counterexample: `"abcd"` tokenizes to 4 tokens, fewer than
`max_tokens = 5`, with `overlap = 3 < 5`, yet `chunk_text` produces two
chunks (`["abcd", "cd"]`), because the loop advances by
`max_tokens - overlap = 2` and `4 > 2`.  So the claim "fewer than
`max_tokens` tokens gives exactly one chunk" is false on the code. -/
theorem chunk_text_two_chunks :
    (charTokenizer.encode "abcd").length < 5 ∧ (3 : Nat) < 5 ∧
    chunk_text charTokenizer "abcd" 5 3 = ["abcd", "cd"] ∧
    (chunk_text charTokenizer "abcd" 5 3).length ≠ 1 := by decide

/-- Claim C2 (amended): for every text whose tokenization is non-empty
and has at most `max_tokens - overlap` tokens (and `overlap < max_tokens`,
with a tokenizer whose decode round-trips on this text), `chunk_text`
returns exactly one chunk, and that chunk decodes to the whole text. -/
theorem chunk_text_singleton (tk : Tokenizer τ) (text : String) (maxT ov : Nat)
    (hov : ov < maxT) (hne : tk.encode text ≠ [])
    (hlen : (tk.encode text).length ≤ maxT - ov)
    (hdr : tk.decode (tk.encode text) = text) :
    chunk_text tk text maxT ov = [text] := by
  unfold chunk_text
  rw [chunkTokens_cons maxT ov hov _ hne]
  have hdrop : (tk.encode text).drop (maxT - ov) = [] :=
    List.drop_eq_nil_of_le hlen
  rw [hdrop, chunkTokens_nil]
  have htake : (tk.encode text).take maxT = tk.encode text :=
    List.take_of_length_le (by omega)
  rw [htake]
  simp [hdr]

/-- Witness for the amended C2 at `"ab"`, `max_tokens = 5`, `overlap = 3`. -/
theorem chunk_text_singleton_witness :
    chunk_text charTokenizer "ab" 5 3 = ["ab"] :=
  chunk_text_singleton charTokenizer "ab" 5 3 (by decide) (by decide) (by decide) (by decide)

/-- Decoding a non-empty character-token list gives a non-empty string. -/
theorem charTokenizer_decode_ne (l : List Char) (hl : l ≠ []) :
    charTokenizer.decode l ≠ "" := by
  intro h
  apply hl
  simpa using congrArg String.data h

/-- Claim C10: for a token sequence of length `n` and `overlap <
max_tokens`, `chunk_text` produces exactly `ceil(n / (max_tokens -
overlap))` chunks, the `i`-th being the decoding of the token slice at
`i * (max_tokens - overlap)` of length at most `max_tokens`; zero chunks
for the empty tokenization, and every produced chunk is non-empty (for a
decoder sending non-empty token lists to non-empty strings). -/
theorem chunk_text_closed_form (tk : Tokenizer τ) (maxT ov : Nat) (text : String)
    (hov : ov < maxT) (hdec : ∀ l : List τ, l ≠ [] → tk.decode l ≠ "") :
    chunk_text tk text maxT ov
      = (List.range (((tk.encode text).length + (maxT - ov) - 1) / (maxT - ov))).map
          (fun i => tk.decode (((tk.encode text).drop (i * (maxT - ov))).take maxT))
    ∧ (tk.encode text = [] → chunk_text tk text maxT ov = [])
    ∧ ∀ c ∈ chunk_text tk text maxT ov, c ≠ "" := by
  refine ⟨?_, ?_, ?_⟩
  · simp only [chunk_text, chunkTokens, pyRange, List.map_map]
    apply List.map_congr_left
    intro i _
    simp [Function.comp]
  · intro h0
    simp [chunk_text, h0, chunkTokens_nil]
  · intro c hc
    simp only [chunk_text, List.mem_map] at hc
    obtain ⟨tc, htc, rfl⟩ := hc
    exact hdec tc (chunkTokens_ne_nil maxT ov hov _ tc htc)

/-- Witness for C10 at `"abcd"`, `max_tokens = 5`, `overlap = 3`. -/
theorem chunk_text_closed_form_witness :
    chunk_text charTokenizer "abcd" 5 3
      = (List.range (((charTokenizer.encode "abcd").length + (5 - 3) - 1) / (5 - 3))).map
          (fun i => charTokenizer.decode
            (((charTokenizer.encode "abcd").drop (i * (5 - 3))).take 5))
    ∧ (charTokenizer.encode "abcd" = [] → chunk_text charTokenizer "abcd" 5 3 = [])
    ∧ ∀ c ∈ chunk_text charTokenizer "abcd" 5 3, c ≠ "" :=
  chunk_text_closed_form charTokenizer 5 3 "abcd" (by decide) charTokenizer_decode_ne

/-- Claim C6: for any text and `overlap < max_tokens`, re-tokenizing the
concatenation of all chunks with the overlap removed from every chunk
after the first reproduces the original token sequence exactly (for a
tokenizer whose decoder is concatenation-homomorphic and a left inverse
of `encode`, as the byte-level gpt2 decoder is). -/
theorem chunk_coverage (tk : Tokenizer τ) (maxT ov : Nat) (text : String)
    (hov : ov < maxT)
    (hnil : tk.decode [] = "")
    (hhom : ∀ a b : List τ, tk.decode (a ++ b) = tk.decode a ++ tk.decode b)
    (hrt : ∀ l : List τ, tk.encode (tk.decode l) = l) :
    tk.encode (overlapJoinText tk ov (chunk_text tk text maxT ov)) = tk.encode text := by
  unfold chunk_text
  cases hcs : chunkTokens maxT ov (tk.encode text) with
  | nil =>
    have h0 := chunkTokens_overlapJoin maxT ov hov (tk.encode text)
    rw [hcs] at h0
    have hts : tk.encode text = [] := h0.symm
    simp only [List.map_nil]
    show tk.encode (overlapJoinText tk ov []) = tk.encode text
    have he : overlapJoinText tk ov ([] : List String) = "" := rfl
    rw [he, hts, ← hnil, hrt]
  | cons c rest =>
    simp only [List.map_cons]
    show tk.encode (tk.decode c ++ concatStrings ((rest.map tk.decode).map
      fun s => tk.decode ((tk.encode s).drop ov))) = tk.encode text
    have hm1 : (rest.map tk.decode).map (fun s => tk.decode ((tk.encode s).drop ov))
        = (rest.map (List.drop ov)).map tk.decode := by
      simp [List.map_map, Function.comp, hrt]
    rw [hm1, concatStrings_map_decode tk hnil hhom, ← hhom, hrt]
    have h0 := chunkTokens_overlapJoin maxT ov hov (tk.encode text)
    rw [hcs] at h0
    exact h0

/-- The character tokenizer's decoder maps `[]` to `""`. -/
theorem charTokenizer_decode_nil : charTokenizer.decode [] = "" := rfl

/-- The character tokenizer's decoder is concatenation-homomorphic. -/
theorem charTokenizer_decode_append (a b : List Char) :
    charTokenizer.decode (a ++ b) = charTokenizer.decode a ++ charTokenizer.decode b := rfl

/-- The character tokenizer's encoder is a left inverse of its decoder. -/
theorem charTokenizer_encode_decode (l : List Char) :
    charTokenizer.encode (charTokenizer.decode l) = l := rfl

/-- Witness for C6 at `"abcdef"`, `max_tokens = 3`, `overlap = 1`. -/
theorem chunk_coverage_witness :
    charTokenizer.encode
        (overlapJoinText charTokenizer 1 (chunk_text charTokenizer "abcdef" 3 1))
      = charTokenizer.encode "abcdef" :=
  chunk_coverage charTokenizer 3 1 "abcdef" (by decide) charTokenizer_decode_nil
    charTokenizer_decode_append charTokenizer_encode_decode

/- ### Ingestion claims -/

/-- A successful batched embedding run over an order/length-preserving
backend embeds exactly the flattened batch list, element by element. -/
theorem embedBatches_ok_map (f : List String → Except ε (List (List Rat)))
    (embedOne : String → List Rat)
    (hf : ∀ b v, f b = .ok v → v = b.map embedOne) :
    ∀ (bs : List (List String)) (v), embedBatches f bs = .ok v →
      v = bs.flatten.map embedOne := by
  intro bs
  induction bs with
  | nil =>
    intro v hv
    simp [embedBatches] at hv
    simp [← hv]
  | cons b bs ih =>
    intro v hv
    cases hfb : f b with
    | error e => simp [embedBatches, hfb] at hv
    | ok w =>
      cases hrest : embedBatches f bs with
      | error e => simp [embedBatches, hfb, hrest] at hv
      | ok rest =>
        simp only [embedBatches, hfb, hrest] at hv
        have hv2 : w ++ rest = v := by simpa using hv
        rw [← hv2, hf b w hfb, ih rest hrest]
        simp [List.flatten_cons, List.map_append]

/-- Claim C7: after ingestion the number of vectors equals the length of
the metadata sequence, and the vector at row `i` is exactly the embedding
of the chunk text recorded at `metadata[i]` — both sequences are built
append-only in the same order.  `hf` is the spec's order- and
length-preserving contract of the embedding backend. -/
theorem ingest_row_alignment (tk : Tokenizer τ) (maxT ov : Nat)
    (docs : List (String × String)) (f : List String → Except ε (List (List Rat)))
    (embedOne : String → List Rat)
    (hf : ∀ b v, f b = .ok v → v = b.map embedOne)
    (embs : List (List Rat))
    (hok : ingestEmbeddings f (ingestTexts tk maxT ov docs) = .ok embs) :
    embs.length = (ingestMeta tk maxT ov docs).length
    ∧ embs = (ingestMeta tk maxT ov docs).map fun m => embedOne m.text := by
  have h1 : embs = (ingestTexts tk maxT ov docs).map embedOne := by
    have h2 := embedBatches_ok_map f embedOne hf _ embs hok
    rwa [chunkTokens_flatten_zero 50 (by omega) _] at h2
  have h3 : ingestTexts tk maxT ov docs
      = (ingestMeta tk maxT ov docs).map MetaRecord.text := by
    simp only [ingestTexts, ingestMeta, List.map_map]
    rfl
  constructor
  · rw [h1, h3]
    simp
  · rw [h1, h3, List.map_map]
    rfl

/-- Witness for C7: one document, one chunk, one batch, one vector. -/
theorem ingest_row_alignment_witness :
    ([cEmbedOne "ab"] : List (List Rat)).length
        = (ingestMeta charTokenizer 5 1 [("UIButton Overview", "ab")]).length
    ∧ ([cEmbedOne "ab"] : List (List Rat))
        = (ingestMeta charTokenizer 5 1 [("UIButton Overview", "ab")]).map
            fun m => cEmbedOne m.text :=
  ingest_row_alignment charTokenizer 5 1 [("UIButton Overview", "ab")] cEmbedOk cEmbedOne
    (fun _ _ hv => (Except.ok.inj hv).symm) [cEmbedOne "ab"] rfl

/-- If any batch in the list fails, the whole embedding loop fails. -/
theorem embedBatches_error_of_mem (f : List String → Except ε (List (List Rat))) :
    ∀ (bs : List (List String)), (∃ b ∈ bs, ∃ e, f b = .error e) →
      ∃ e, embedBatches f bs = .error e := by
  intro bs
  induction bs with
  | nil =>
    rintro ⟨b, hb, _⟩
    cases hb
  | cons b t ih =>
    rintro ⟨b2, hb2, e2, he2⟩
    cases hfb : f b with
    | error e => exact ⟨e, by simp [embedBatches, hfb]⟩
    | ok w =>
      have hmem : b2 ∈ t := by
        rcases List.mem_cons.mp hb2 with rfl | hmm
        · rw [hfb] at he2
          cases he2
        · exact hmm
      obtain ⟨e3, he3⟩ := ih ⟨b2, hmem, e2, he2⟩
      exact ⟨e3, by simp [embedBatches, hfb, he3]⟩

/-- Claim C9: if any embedding batch call fails, the ingestion run stops
with the error and produces no artifact at all — the index file and the
companion metadata file exist only in the success branch, after every
batch has succeeded. -/
theorem ingest_no_partial_persist (tk : Tokenizer τ) (maxT ov : Nat)
    (docs : List (String × String)) (f : List String → Except ε (List (List Rat)))
    (output : String)
    (h : ∃ b ∈ chunkTokens 50 0 (ingestTexts tk maxT ov docs), ∃ e, f b = .error e) :
    ∃ e, ingestArtifacts f tk maxT ov docs output = .error e := by
  obtain ⟨e, he⟩ := embedBatches_error_of_mem f _ h
  exact ⟨e, by simp [ingestArtifacts, ingestEmbeddings, he]⟩

/-- Witness for C9: a failing backend on a one-batch run persists nothing. -/
theorem ingest_no_partial_persist_witness :
    ∃ e, ingestArtifacts cEmbedFail charTokenizer 5 1 [("UIButton Overview", "ab")]
      "data/out.faiss" = .error e :=
  ingest_no_partial_persist charTokenizer 5 1 [("UIButton Overview", "ab")] cEmbedFail
    "data/out.faiss" ⟨["ab"], by decide, (), rfl⟩

/- ### Extractor claim -/

/-- A fold that appends conditionally equals the accumulator followed by
a `filterMap` of the remaining list. -/
theorem foldl_if_append (p : α → Bool) (g : α → β) :
    ∀ (l : List α) (acc : List β),
      l.foldl (fun ac a => if p a then ac ++ [g a] else ac) acc
        = acc ++ l.filterMap (fun a => if p a then some (g a) else none) := by
  intro l
  induction l with
  | nil => intro acc; simp
  | cons a t ih =>
    intro acc
    simp only [List.foldl_cons]
    cases hp : p a with
    | true => simp [hp, ih (acc ++ [g a]), List.filterMap_cons]
    | false => simp [hp, ih acc, List.filterMap_cons]

/-- Claim C8: the extractor fails with `InvalidBundle` exactly when the
sqlite index file or the documents directory is absent; otherwise it
yields, in index order, one `(name, text)` document per row whose backing
file exists, silently skipping rows whose file is missing. -/
theorem extractor_characterization (fs : DocsetEnv) (stripText : String → String)
    (p : String) :
    get_documents fs stripText p
      = if !fs.isFile (dsidxPath p) || !fs.isDir (documentsDir p) then
          .error .invalidBundle
        else
          .ok (fs.searchIndexRows.filterMap fun e =>
            if fs.isFile (pathJoin (documentsDir p) e.2) then
              some (e.1, stripText (fs.readFile (pathJoin (documentsDir p) e.2)))
            else none) := by
  unfold get_documents
  split
  · rfl
  · have h := foldl_if_append
      (fun e : String × String => fs.isFile (pathJoin (documentsDir p) e.2))
      (fun e : String × String =>
        (e.1, stripText (fs.readFile (pathJoin (documentsDir p) e.2))))
      fs.searchIndexRows []
    rw [h]
    simp

/- ### Retrieval and load claims (evaluations at the failing inputs) -/

/-- Claim C1 evaluation: querying a one-row store with `k = 2` makes the
search return one real row plus a `(big, -1)` sentinel pair, and
`retrieve_docs` does NOT skip the sentinel — Python's `meta[-1]` reads
the last metadata record, so the call returns two results (not
`row_count = 1`), the second fabricated from the sentinel. -/
theorem retrieval_reads_sentinel_row :
    retrieve_docs oneRowIndex [uiViewMeta] "How do I create a UIView?" (fun _ => [0]) 2
      = .ok [{ name := "UIView Overview", chunk := "UIView chunk text", distance := 0 },
             { name := "UIView Overview", chunk := "UIView chunk text",
               distance := sentinelDist }]
    ∧ pyGet [uiViewMeta] (-1) = some uiViewMeta
    ∧ oneRowIndex.ntotal = 1 := ⟨rfl, rfl, rfl⟩

/-- Claim C3 evaluation: querying a zero-row store is not rejected — the
query vector reaches the index's `search`, which returns `-1` sentinels,
and the run then dies on `meta[idx]` with Python's `IndexError` (the
scripts define no `IndexEmpty` at all). -/
theorem retrieval_empty_store_index_error :
    retrieve_docs emptyIndex [] "How do I create a UIView?" (fun _ => [0]) 5
      = .error .indexError
    ∧ emptyIndex.ntotal = 0 := ⟨rfl, rfl⟩

/-- Claim C5 evaluation: a request with `topk = 0` is not rejected — no
positivity check exists, the search is performed with `k = 0` and the run
completes successfully with zero results (the scripts define no
`InvalidArgument` at all). -/
theorem retrieval_k_zero_completes :
    retrieve_docs smallIndex [uiViewMeta] "How do I create a UIView?" (fun _ => [0]) 0
      = .ok [] := rfl

/-- Claim C4 evaluation: loading an index artifact with 2 rows next to a
metadata file holding 1 record succeeds — no row-count comparison exists
(the scripts define no `IndexCorrupt`), so the misaligned pair is served. -/
theorem load_serves_misaligned_pair :
    ∃ ix m, loadIndexAndMetadata misalignedEnv "data/docset_index.faiss"
        "data/docset_index.faiss.meta.json" = .ok (ix, m)
      ∧ m.length ≠ ix.ntotal :=
  ⟨misalignedEnv.readIndexFile "data/docset_index.faiss", [uiViewMeta], rfl, by decide⟩
